import Mathlib

/-!
Shallow embedding of the VibeGeometry canvas model (`canvaswidget.h`,
`canvaswidget.cpp`).  Coordinates (`QPointF`, C++ `double`) are modelled as
exact rationals; `circleCircleIntersections` needs square roots and is
modelled over the reals.  Entity handles are C++ `int`, modelled as `ℤ`.
`QVector`/`QList` become Lean lists; a `QSet<int>` becomes a `List ℤ`
(holding the set's elements in its unspecified iteration order, without
duplicates in any state the widget actually builds).
-/

namespace VibeGeometry

/-- A point in the plane, modelling `QPointF`. -/
abbrev Vec2 := ℚ × ℚ

/-- `CanvasWidget::Point`: a position plus a label (the field name `positiom`
is the source's own spelling). -/
structure Point where
  positiom : Vec2
  label : String
deriving DecidableEq

/-- `CanvasWidget::Line`: two point handles plus a label. -/
structure Line where
  a : ℤ
  b : ℤ
  label : String
deriving DecidableEq

/-- `CanvasWidget::ExtendedLine`: two literal endpoints plus a label. -/
structure ExtendedLine where
  a : Vec2
  b : Vec2
  label : String
deriving DecidableEq

/-- `CanvasWidget::Circle`: center, radius and label. -/
structure Circle where
  center : Vec2
  radius : ℚ
  label : String
deriving DecidableEq

/-- The mutable state of a `CanvasWidget`: the four entity collections, the
four per-kind selection sets and the insertion-ordered point selection list. -/
structure CanvasWidget where
  points : List Point := []
  lines : List Line := []
  extendedLines : List ExtendedLine := []
  circles : List Circle := []
  selectedPointIndices : List ℤ := []
  selectedLineIndices : List ℤ := []
  selectedExtendedLineIndices : List ℤ := []
  selectedCircleIndices : List ℤ := []
  pointSelectionOrder : List ℤ := []
deriving DecidableEq

/-- Qt's `qFuzzyCompare(double p1, double p2)`:
`qAbs(p1 - p2) * 1000000000000. <= qMin(qAbs(p1), qAbs(p2))`.
This is the comparison `CanvasWidget::hasPoint` actually performs; it is a
relative tolerance of 1e-12, not an absolute one. -/
def qFuzzyCompare (p1 p2 : ℚ) : Bool :=
  decide (|p1 - p2| * 1000000000000 ≤ min |p1| |p2|)

/-- `CanvasWidget::hasPoint`: some stored point fuzzy-matches on both axes. -/
def hasPoint (w : CanvasWidget) (point : Vec2) : Bool :=
  w.points.any fun p =>
    qFuzzyCompare p.positiom.1 point.1 && qFuzzyCompare p.positiom.2 point.2

/-- `QSet<int>::insert`: adds the element only when not already present. -/
def qsetInsert (s : List ℤ) (x : ℤ) : List ℤ :=
  if s.contains x then s else s ++ [x]

/-- `CanvasWidget::addPoint(point, label, selectNew)`. -/
def addPoint (w : CanvasWidget) (point : Vec2) (label : String)
    (selectNew : Bool) : CanvasWidget × Bool :=
  if hasPoint w point then (w, false)
  else
    let w1 := { w with points := w.points ++ [⟨point, label⟩] }
    if selectNew then
      let newIndex : ℤ := (w1.points.length : ℤ) - 1
      ({ w1 with
          selectedPointIndices := qsetInsert w1.selectedPointIndices newIndex,
          pointSelectionOrder :=
            (w1.pointSelectionOrder.filter fun i => i ≠ newIndex) ++ [newIndex] },
        true)
    else (w1, true)

/-- `CanvasWidget::addCircle(center, radius)`: rejects `radius <= 0.0`,
otherwise appends a circle with an empty label. -/
def addCircle (w : CanvasWidget) (center : Vec2) (radius : ℚ) :
    CanvasWidget × Bool :=
  if radius ≤ 0 then (w, false)
  else ({ w with circles := w.circles ++ [⟨center, radius, ""⟩] }, true)

/-- `CanvasWidget::deleteAll()`: early-returns when points, lines and circles
are all empty (the guard does not look at `extendedLines`), otherwise clears
the four collections and the four selection sets. -/
def deleteAll (w : CanvasWidget) : CanvasWidget :=
  if w.points = [] ∧ w.lines = [] ∧ w.circles = [] then w
  else
    { w with
        points := [], lines := [], extendedLines := [], circles := [],
        selectedPointIndices := [], selectedLineIndices := [],
        selectedExtendedLineIndices := [], selectedCircleIndices := [] }

/-- `totalSelections` as computed at the top of
`CanvasWidget::setLabelForSelection`. -/
def totalSelectedCount (w : CanvasWidget) : ℕ :=
  w.selectedPointIndices.length + w.selectedLineIndices.length +
    w.selectedExtendedLineIndices.length + w.selectedCircleIndices.length

/-- In-place update of one list entry (`xs[i] = f xs[i]`, a no-op when `i` is
out of range). -/
def setListEntry {α : Type} (xs : List α) (i : ℕ) (f : α → α) : List α :=
  match xs[i]? with
  | some x => xs.set i (f x)
  | none => xs

/-- In-place update `ps[i].label = label` on a list of points. -/
def setPointLabel (ps : List Point) (i : ℕ) (label : String) : List Point :=
  setListEntry ps i fun p => { p with label := label }

/-- In-place update `ls[i].label = label` on a list of lines. -/
def setLineLabel (ls : List Line) (i : ℕ) (label : String) : List Line :=
  setListEntry ls i fun l => { l with label := label }

/-- In-place update `es[i].label = label` on a list of extended lines. -/
def setExtendedLineLabel (es : List ExtendedLine) (i : ℕ) (label : String) :
    List ExtendedLine :=
  setListEntry es i fun e => { e with label := label }

/-- In-place update `cs[i].label = label` on a list of circles. -/
def setCircleLabel (cs : List Circle) (i : ℕ) (label : String) : List Circle :=
  setListEntry cs i fun c => { c with label := label }

/-- `CanvasWidget::setLabelForSelection(label)`: requires exactly one selected
entity overall; relabels it when its handle is in range.  `*set.constBegin()`
is the first element in the set's iteration order, i.e. the head of the
modelled list. -/
def setLabelForSelection (w : CanvasWidget) (label : String) :
    CanvasWidget × Bool :=
  if totalSelectedCount w ≠ 1 then (w, false)
  else
    match w.selectedPointIndices with
    | idx :: _ =>
      if 0 ≤ idx ∧ idx < (w.points.length : ℤ) then
        ({ w with points := setPointLabel w.points idx.toNat label }, true)
      else (w, false)
    | [] =>
      match w.selectedLineIndices with
      | idx :: _ =>
        if 0 ≤ idx ∧ idx < (w.lines.length : ℤ) then
          ({ w with lines := setLineLabel w.lines idx.toNat label }, true)
        else (w, false)
      | [] =>
        match w.selectedExtendedLineIndices with
        | idx :: _ =>
          if 0 ≤ idx ∧ idx < (w.extendedLines.length : ℤ) then
            ({ w with extendedLines :=
                setExtendedLineLabel w.extendedLines idx.toNat label }, true)
          else (w, false)
        | [] =>
          match w.selectedCircleIndices with
          | idx :: _ =>
            if 0 ≤ idx ∧ idx < (w.circles.length : ℤ) then
              ({ w with circles := setCircleLabel w.circles idx.toNat label },
                true)
            else (w, false)
          | [] => (w, false)

/-- The point-compaction loop of `CanvasWidget::deleteSelected`: walking the
points with loop index `i` and `c` the current size of `newPoints`, produce
the `indexMap` (new index of each surviving point, `-1` for removed ones) and
`newPoints` (the surviving points in order). -/
def buildIndexMap (rm : List ℤ) : ℕ → ℕ → List Point → List ℤ × List Point
  | _, _, [] => ([], [])
  | i, c, p :: ps =>
    if rm.contains (i : ℤ) then
      let r := buildIndexMap rm (i + 1) c ps
      ((-1 : ℤ) :: r.1, r.2)
    else
      let r := buildIndexMap rm (i + 1) (c + 1) ps
      ((c : ℤ) :: r.1, p :: r.2)

/-- The line-filtering loop of `CanvasWidget::deleteSelected`: drop selected
lines, lines touching a removed point and lines with out-of-range handles,
remap the rest through `indexMap`; the Bool records whether anything was
dropped (the loop's contributions to `changed`). -/
def remapLines (sel rm indexMap : List ℤ) : ℕ → List Line → List Line × Bool
  | _, [] => ([], false)
  | i, l :: ls =>
    let r := remapLines sel rm indexMap (i + 1) ls
    if sel.contains (i : ℤ) then (r.1, true)
    else if rm.contains l.a || rm.contains l.b then (r.1, true)
    else if l.a < 0 || l.b < 0 || (indexMap.length : ℤ) ≤ l.a ||
        (indexMap.length : ℤ) ≤ l.b then (r.1, true)
    else
      let na := indexMap.getD l.a.toNat (-1)
      let nb := indexMap.getD l.b.toNat (-1)
      if na < 0 || nb < 0 then (r.1, true)
      else (⟨na, nb, l.label⟩ :: r.1, r.2)

/-- The keep-unselected loop used by `deleteSelected` for extended lines and
circles (and by `extendSelectedLines` for the surviving lines): keep entries
whose index is not in `sel`; the Bool records whether any entry was dropped. -/
def removeSelected {α : Type} (sel : List ℤ) : ℕ → List α → List α × Bool
  | _, [] => ([], false)
  | i, x :: xs =>
    let r := removeSelected sel (i + 1) xs
    if sel.contains (i : ℤ) then (r.1, true) else (x :: r.1, r.2)

/-- `CanvasWidget::deleteSelected()`.  The C++ mutates each field in place
(`points.swap`/`circles.swap` guarded by their own conditions, the remaining
fields guarded by `if (changed)`); the model assigns every field its final
value under the same guard. -/
def deleteSelected (w : CanvasWidget) : CanvasWidget × Bool :=
  let removePoints := w.selectedPointIndices
  let im :=
    if removePoints.isEmpty then
      ((List.range w.points.length).map fun i => (i : ℤ), ([] : List Point))
    else buildIndexMap removePoints 0 0 w.points
  let rl := remapLines w.selectedLineIndices removePoints im.1 0 w.lines
  let re := removeSelected w.selectedExtendedLineIndices 0 w.extendedLines
  let rc := removeSelected w.selectedCircleIndices 0 w.circles
  let changed := rl.2 || re.2 || rc.2 || !removePoints.isEmpty
  ({ w with
      points := if removePoints.isEmpty then w.points else im.2,
      lines := if changed then rl.1 else w.lines,
      extendedLines := if changed then re.1 else w.extendedLines,
      circles :=
        if 0 < w.selectedCircleIndices.length then rc.1
        else if rc.1.length ≠ w.circles.length then rc.1
        else w.circles,
      selectedPointIndices := if changed then [] else w.selectedPointIndices,
      selectedLineIndices := if changed then [] else w.selectedLineIndices,
      selectedExtendedLineIndices :=
        if changed then [] else w.selectedExtendedLineIndices,
      selectedCircleIndices :=
        if changed then [] else w.selectedCircleIndices },
    changed)

/-- The compacted index of a surviving point handle `a`: the number of
surviving indices below `a`.  Used to state the deletion-cascade claim
independently of the `buildIndexMap` loop. -/
def compactIndex (rm : List ℤ) (a : ℤ) : ℤ :=
  (((List.range a.toNat).filter
    fun j : ℕ => !rm.contains ((j : ℕ) : ℤ)).length : ℤ)

/-- The selected line handles that pass `extendSelectedLines`' range check
(`idx >= 0 && idx < lines.size()`), in selection-iteration order. -/
def validIndices (lines : List Line) (sel : List ℤ) : List ℤ :=
  sel.filter fun i => decide (0 ≤ i ∧ i < (lines.length : ℤ))

/-- The `isClose` lambda in `CanvasWidget::extendSelectedLines`:
`std::hypot(ax-bx, ay-by) < 1e-6`.  Stated on the squares, which is exactly
equivalent (both sides of the source comparison are nonnegative). -/
def isClose (a b : Vec2) : Bool :=
  decide ((a.1 - b.1) * (a.1 - b.1) + (a.2 - b.2) * (a.2 - b.2) <
    1 / 1000000 * (1 / 1000000))

/-- The duplicate-removal loop in `CanvasWidget::extendSelectedLines`. -/
def uniqueHitsOf (hits : List Vec2) : List Vec2 :=
  hits.foldl (fun acc h => if acc.any fun u => isClose h u then acc
    else acc ++ [h]) []

/-- The per-line body of `CanvasWidget::extendSelectedLines`: clip the line
through `points[l.a]`, `points[l.b]` against the box [-5,5]×[-5,5] and build
the replacement `ExtendedLine` (endpoints unchanged when fewer than two
distinct box hits exist).  The C++ reads `points[...]` unchecked; the model
uses a default point, which its callers never reach because `deleteSelected`
keeps handles in range. -/
def computeExtendedLine (pts : List Point) (l : Line) : ExtendedLine :=
  let p1 := (pts.getD l.a.toNat ⟨(0, 0), ""⟩).positiom
  let p2 := (pts.getD l.b.toNat ⟨(0, 0), ""⟩).positiom
  let dx := p2.1 - p1.1
  let dy := p2.2 - p1.2
  let insideBox := fun (x y : ℚ) =>
    decide (-5 - 1 / 1000000000 ≤ x ∧ x ≤ 5 + 1 / 1000000000 ∧
      -5 - 1 / 1000000000 ≤ y ∧ y ≤ 5 + 1 / 1000000000)
  let hits : List Vec2 :=
    (if 1 / 1000000000 < |dx| then
      let t1 := (-5 - p1.1) / dx
      let t2 := (5 - p1.1) / dx
      (if insideBox (-5) (p1.2 + t1 * dy) then [((-5 : ℚ), p1.2 + t1 * dy)]
        else []) ++
      (if insideBox 5 (p1.2 + t2 * dy) then [((5 : ℚ), p1.2 + t2 * dy)]
        else [])
    else []) ++
    (if 1 / 1000000000 < |dy| then
      let t3 := (-5 - p1.2) / dy
      let t4 := (5 - p1.2) / dy
      (if insideBox (p1.1 + t3 * dx) (-5) then [(p1.1 + t3 * dx, (-5 : ℚ))]
        else []) ++
      (if insideBox (p1.1 + t4 * dx) 5 then [(p1.1 + t4 * dx, (5 : ℚ))]
        else [])
    else [])
  let uniqueHits := uniqueHitsOf hits
  if 2 ≤ uniqueHits.length then
    let proj : List (ℚ × Vec2) :=
      if |dy| ≤ |dx| then uniqueHits.map fun h => ((h.1 - p1.1) / dx, h)
      else uniqueHits.map fun h => ((h.2 - p1.2) / dy, h)
    let sorted := proj.mergeSort fun x y => decide (x.1 ≤ y.1)
    ⟨(sorted.headD (0, p1)).2, (sorted.getLastD (0, p1)).2, l.label⟩
  else ⟨p1, p2, l.label⟩

/-- The iteration of `CanvasWidget::extendSelectedLines` over the selected
line indices: collect the new extended lines, the indices to remove, and the
`changed` flag. -/
def extendLoop (pts : List Point) (lines : List Line) :
    List ℤ → List ExtendedLine × List ℤ × Bool
  | [] => ([], [], false)
  | idx :: rest =>
    let r := extendLoop pts lines rest
    if 0 ≤ idx ∧ idx < (lines.length : ℤ) then
      (computeExtendedLine pts (lines.getD idx.toNat ⟨-1, -1, ""⟩) :: r.1,
        idx :: r.2.1, true)
    else r

/-- `CanvasWidget::extendSelectedLines()`. -/
def extendSelectedLines (w : CanvasWidget) : CanvasWidget × Bool :=
  let r := extendLoop w.points w.lines w.selectedLineIndices
  let toRemove := r.2.1
  let lines' :=
    if toRemove.isEmpty then w.lines else (removeSelected toRemove 0 w.lines).1
  let sel' := if toRemove.isEmpty then w.selectedLineIndices else []
  ({ w with
      lines := lines',
      extendedLines := w.extendedLines ++ r.1,
      selectedLineIndices := sel' },
    r.2.2)

/-- The anonymous-namespace helper `segmentIntersection(p, p2, q, q2, out)`:
`some hit` models `return true` with `out = hit`. -/
def segmentIntersection (p p2 q q2 : Vec2) : Option Vec2 :=
  let r := (p2.1 - p.1, p2.2 - p.2)
  let s := (q2.1 - q.1, q2.2 - q.2)
  let denom := r.1 * s.2 - r.2 * s.1
  if |denom| < 1 / 1000000000 then none
  else
    let qp := (q.1 - p.1, q.2 - p.2)
    let t := (qp.1 * s.2 - qp.2 * s.1) / denom
    let u := (qp.1 * r.2 - qp.2 * r.1) / denom
    if -1 / 1000000000 ≤ t ∧ t ≤ 1 + 1 / 1000000000 ∧
        -1 / 1000000000 ≤ u ∧ u ≤ 1 + 1 / 1000000000 then
      some (p.1 + t * r.1, p.2 + t * r.2)
    else none

/-- The anonymous-namespace helper `circleCircleIntersections(c0, r0, c1, r1)`
over the reals (`std::hypot`/`std::sqrt` are exact square roots here). -/
noncomputable def circleCircleIntersections (c0 : ℝ × ℝ) (r0 : ℝ)
    (c1 : ℝ × ℝ) (r1 : ℝ) : List (ℝ × ℝ) :=
  let dx := c1.1 - c0.1
  let dy := c1.2 - c0.2
  let d := Real.sqrt (dx * dx + dy * dy)
  if d < 1 / 1000000000 ∨ r0 + r1 < d ∨ d < |r0 - r1| then []
  else
    let a := (r0 * r0 - r1 * r1 + d * d) / (2 * d)
    let h2 := r0 * r0 - a * a
    if h2 < 0 then []
    else
      let h := Real.sqrt (max 0 h2)
      let px := c0.1 + a * dx / d
      let py := c0.2 + a * dy / d
      let rx := -dy * (h / d)
      let ry := dx * (h / d)
      (px + rx, py + ry) ::
        (if 1 / 1000000000 < h then [(px - rx, py - ry)] else [])

/-- A JSON value, modelling `QJsonValue` (objects are association lists). -/
inductive Json where
  | null : Json
  | bool (b : Bool) : Json
  | num (v : ℚ) : Json
  | str (s : String) : Json
  | arr (elems : List Json) : Json
  | obj (fields : List (String × Json)) : Json

/-- `QJsonObject::value(key)` on an object; `none` models
`QJsonValue::Undefined` (missing key or non-object receiver). -/
def Json.lookupField : Json → String → Option Json
  | .obj fields, key => fields.lookup key
  | _, _ => none

/-- `QJsonValue::isObject`. -/
def Json.isObject : Json → Bool
  | .obj _ => true
  | _ => false

/-- `QJsonValue::toArray()` (default: empty array). -/
def jToArray : Option Json → List Json
  | some (Json.arr elems) => elems
  | _ => []

/-- `QJsonValue::toDouble()` (default 0). -/
def jToDouble : Option Json → ℚ
  | some (Json.num v) => v
  | _ => 0

/-- `QJsonValue::toInt(def)`: the number when it is integral, else `def`. -/
def jToInt (v : Option Json) (d : ℤ) : ℤ :=
  match v with
  | some (Json.num q) => if q.den = 1 then q.num else d
  | _ => d

/-- `QJsonValue::toBool(def)`. -/
def jToBool (v : Option Json) (d : Bool) : Bool :=
  match v with
  | some (Json.bool b) => b
  | _ => d

/-- `QJsonValue::toString()` (null `QString` for non-strings, i.e. `""`). -/
def jToString : Option Json → String
  | some (Json.str s) => s
  | _ => ""

/-- `CanvasWidget::loadPointsFromFile(path)`.  Reading and parsing the file
happen through Qt; `file` is the outcome: `none` when the file is missing,
unreadable, or its bytes do not parse as JSON (`QJsonDocument::fromJson`
yields a null document, whose `isObject()` is false), `some doc` for a parsed
document. -/
def loadPointsFromFile (w : CanvasWidget) (path : String) (file : Option Json) :
    CanvasWidget × Bool :=
  if path = "" then (w, false)
  else
    match file with
    | none => (w, false)
    | some doc =>
      if !doc.isObject then (w, false)
      else
        let points := (jToArray (doc.lookupField "points")).filterMap fun v =>
          if v.isObject then
            some (⟨(jToDouble (v.lookupField "x"), jToDouble (v.lookupField "y")),
              jToString (v.lookupField "label")⟩ : Point)
          else none
        let linesAndCustom :=
          (jToArray (doc.lookupField "lines")).foldl (fun acc v =>
            if v.isObject then
              let a := jToInt (v.lookupField "a") (-1)
              let b := jToInt (v.lookupField "b") (-1)
              let label := jToString (v.lookupField "label")
              if jToBool (v.lookupField "custom") false then
                (acc.1, acc.2 ++ [(⟨(jToDouble (v.lookupField "customAx"),
                    jToDouble (v.lookupField "customAy")),
                  (jToDouble (v.lookupField "customBx"),
                    jToDouble (v.lookupField "customBy")), label⟩ :
                  ExtendedLine)])
              else if 0 ≤ a ∧ 0 ≤ b then
                (acc.1 ++ [(⟨a, b, label⟩ : Line)], acc.2)
              else acc
            else acc) (([] : List Line), ([] : List ExtendedLine))
        let extended := linesAndCustom.2 ++
          (jToArray (doc.lookupField "extendedLines")).filterMap fun v =>
            if v.isObject then
              some (⟨(jToDouble (v.lookupField "ax"),
                  jToDouble (v.lookupField "ay")),
                (jToDouble (v.lookupField "bx"),
                  jToDouble (v.lookupField "by")),
                jToString (v.lookupField "label")⟩ : ExtendedLine)
            else none
        let circles := (jToArray (doc.lookupField "circles")).filterMap fun v =>
          if v.isObject then
            let r := jToDouble (v.lookupField "r")
            if 0 < r then
              some (⟨(jToDouble (v.lookupField "x"),
                jToDouble (v.lookupField "y")), r,
                jToString (v.lookupField "label")⟩ : Circle)
            else none
          else none
        ({ points := points, lines := linesAndCustom.1,
            extendedLines := extended, circles := circles,
            selectedPointIndices := [], selectedLineIndices := [],
            selectedExtendedLineIndices := [], selectedCircleIndices := [],
            pointSelectionOrder := [] }, true)

/-! ## Theorems -/

/-- `hasPoint` holds exactly when some stored point fuzzy-matches on both
axes. -/
theorem hasPoint_iff (w : CanvasWidget) (p : Vec2) :
    hasPoint w p = true ↔
      ∃ q ∈ w.points, qFuzzyCompare q.positiom.1 p.1 = true ∧
        qFuzzyCompare q.positiom.2 p.2 = true := by
  simp [hasPoint, List.any_eq_true, Bool.and_eq_true]

/-- C2 counterexample: the claim's absolute-1e-9-tolerance reading is false.
The store holds a point at (1/1000, 0); the candidate (1/1000 + 5e-10, 0) is
within 1e-9 of it on both axes, yet `addPoint` reports success and appends a
second point, because `hasPoint` uses Qt's relative `qFuzzyCompare`, which
rejects this pair. -/
theorem addPoint_abs_tolerance_cex :
    (|(1 / 1000 : ℚ) - (1 / 1000 + 1 / 2000000000)| ≤ 1 / 1000000000 ∧
      |(0 : ℚ) - 0| ≤ 1 / 1000000000) ∧
    (addPoint { points := [⟨(1 / 1000, 0), ""⟩] }
        (1 / 1000 + 1 / 2000000000, 0) "" false).2 = true ∧
    (addPoint { points := [⟨(1 / 1000, 0), ""⟩] }
        (1 / 1000 + 1 / 2000000000, 0) "" false).1.points.length = 2 := by
  norm_num [addPoint, hasPoint, qFuzzyCompare, abs_of_nonneg, abs_of_nonpos]

/-- C2 (amended): `addPoint` is idempotent under Qt's relative fuzzy
comparison: when some stored point fuzzy-matches the candidate on both axes
it creates nothing and reports failure; otherwise it appends exactly one new
point and reports success. -/
theorem addPoint_fuzzy_idempotent (w : CanvasWidget) (p : Vec2)
    (label : String) (selectNew : Bool) :
    ((∃ q ∈ w.points, qFuzzyCompare q.positiom.1 p.1 = true ∧
        qFuzzyCompare q.positiom.2 p.2 = true) →
      addPoint w p label selectNew = (w, false)) ∧
    ((∀ q ∈ w.points, qFuzzyCompare q.positiom.1 p.1 = false ∨
        qFuzzyCompare q.positiom.2 p.2 = false) →
      (addPoint w p label selectNew).1.points = w.points ++ [⟨p, label⟩] ∧
        (addPoint w p label selectNew).2 = true) := by
  constructor
  · intro h
    have hh : hasPoint w p = true := (hasPoint_iff w p).mpr h
    simp [addPoint, hh]
  · intro h
    have hh : hasPoint w p = false := by
      rw [← Bool.not_eq_true, hasPoint_iff]
      rintro ⟨q, hq, h1, h2⟩
      rcases h q hq with h' | h' <;> simp_all
    cases selectNew <;> simp [addPoint, hh]

/-- C2 witness: both branches of `addPoint_fuzzy_idempotent` at concrete
inputs. -/
theorem addPoint_fuzzy_idempotent_witness :
    addPoint { points := [⟨(1, 1), ""⟩] } ((1 : ℚ), (1 : ℚ)) "x" false =
      ({ points := [⟨(1, 1), ""⟩] }, false) ∧
    (addPoint ({} : CanvasWidget) ((0 : ℚ), (0 : ℚ)) "" false).1.points =
      [⟨(0, 0), ""⟩] ∧
    (addPoint ({} : CanvasWidget) ((0 : ℚ), (0 : ℚ)) "" false).2 = true := by
  refine ⟨?_, ?_⟩
  · exact (addPoint_fuzzy_idempotent _ _ _ _).1
      ⟨⟨(1, 1), ""⟩, by simp, by norm_num [qFuzzyCompare],
        by norm_num [qFuzzyCompare]⟩
  · have h := (addPoint_fuzzy_idempotent ({} : CanvasWidget)
      ((0 : ℚ), (0 : ℚ)) "" false).2 (by intro q hq; simp at hq)
    simpa using h

/-- C3: `deleteAll` fails to clear the model when points, lines and circles
are all empty but an `ExtendedLine` remains: its early-return guard omits
`extendedLines`, so the extended line survives, contradicting the documented
"clears all collections". -/
theorem deleteAll_misses_extendedLines :
    deleteAll { extendedLines := [⟨(0, 0), (1, 1), "E1"⟩] } =
      { extendedLines := [⟨(0, 0), (1, 1), "E1"⟩] } ∧
    (deleteAll { extendedLines := [⟨(0, 0), (1, 1), "E1"⟩] }).extendedLines ≠
      [] := by
  norm_num [deleteAll]

/-- C6 counterexample: `addCircle` accepts the radius 1e-10, which is below
the spec's 1e-9 degeneracy tolerance, because the source's guard is
`radius <= 0.0`, not `radius ≤ tolerance`. -/
theorem addCircle_zero_threshold_cex :
    ((1 : ℚ) / 10000000000 ≤ 1 / 1000000000) ∧
    (addCircle {} ((0 : ℚ), (0 : ℚ)) (1 / 10000000000)).2 = true ∧
    (addCircle {} ((0 : ℚ), (0 : ℚ)) (1 / 10000000000)).1.circles =
      [⟨(0, 0), 1 / 10000000000, ""⟩] := by
  norm_num [addCircle]

/-- C6 (amended): `addCircle` fails exactly for radius ≤ 0, appends exactly
one circle with the given data for any positive radius, and preserves the
all-radii-positive store invariant. -/
theorem addCircle_spec (w : CanvasWidget) (center : Vec2) (radius : ℚ) :
    (radius ≤ 0 → addCircle w center radius = (w, false)) ∧
    (0 < radius →
      addCircle w center radius =
        ({ w with circles := w.circles ++ [⟨center, radius, ""⟩] }, true)) ∧
    ((∀ c ∈ w.circles, 0 < c.radius) →
      ∀ c ∈ (addCircle w center radius).1.circles, 0 < c.radius) := by
  refine ⟨fun h => ?_, fun h => ?_, fun h c hc => ?_⟩
  · simp [addCircle, h]
  · simp [addCircle, not_le.mpr h]
  · by_cases hr : radius ≤ 0
    · simp only [addCircle, if_pos hr] at hc
      exact h c hc
    · simp only [addCircle, if_neg hr, List.mem_append, List.mem_singleton] at hc
      rcases hc with hc | rfl
      · exact h c hc
      · exact not_le.mp hr

/-- C6 witness: `addCircle_spec` at radius 1 on the empty model. -/
theorem addCircle_spec_witness :
    addCircle ({} : CanvasWidget) ((0 : ℚ), (0 : ℚ)) 1 =
      ({ circles := [⟨(0, 0), 1, ""⟩] }, true) := by
  have h := (addCircle_spec ({} : CanvasWidget) ((0 : ℚ), (0 : ℚ)) 1).2.1
    (by norm_num)
  simpa using h

/-- A model with one selected point, used to exercise the deletion
theorems. -/
def exDeleteState : CanvasWidget :=
  { points := [⟨(0, 0), "P0"⟩], selectedPointIndices := [0],
    pointSelectionOrder := [0] }

/-- C10: whenever `deleteSelected` reports a change, the four per-kind
selection sets end up empty while `pointSelectionOrder` is left exactly as it
was (the code never touches it). -/
theorem deleteSelected_clears_selections (w : CanvasWidget)
    (h : (deleteSelected w).2 = true) :
    (deleteSelected w).1.selectedPointIndices = [] ∧
    (deleteSelected w).1.selectedLineIndices = [] ∧
    (deleteSelected w).1.selectedExtendedLineIndices = [] ∧
    (deleteSelected w).1.selectedCircleIndices = [] ∧
    (deleteSelected w).1.pointSelectionOrder = w.pointSelectionOrder := by
  refine ⟨?_, ?_, ?_, ?_, rfl⟩
  · show (if (deleteSelected w).2 = true then []
      else w.selectedPointIndices) = []
    rw [h]
    simp
  · show (if (deleteSelected w).2 = true then []
      else w.selectedLineIndices) = []
    rw [h]
    simp
  · show (if (deleteSelected w).2 = true then []
      else w.selectedExtendedLineIndices) = []
    rw [h]
    simp
  · show (if (deleteSelected w).2 = true then []
      else w.selectedCircleIndices) = []
    rw [h]
    simp

/-- C10 witness: deleting the one selected point of `exDeleteState` clears
the selection sets and keeps the selection-order list. -/
theorem deleteSelected_clears_selections_witness :
    (deleteSelected exDeleteState).1.selectedPointIndices = [] ∧
    (deleteSelected exDeleteState).1.selectedLineIndices = [] ∧
    (deleteSelected exDeleteState).1.selectedExtendedLineIndices = [] ∧
    (deleteSelected exDeleteState).1.selectedCircleIndices = [] ∧
    (deleteSelected exDeleteState).1.pointSelectionOrder =
      exDeleteState.pointSelectionOrder :=
  deleteSelected_clears_selections _ (by decide)

/-- C7: loading is all-or-nothing.  A missing/unreadable/unparseable file or
a parse result that is not a JSON object reports failure and leaves the prior
model untouched; a successful load produces a state that does not depend on
the prior model at all. -/
theorem loadPointsFromFile_atomic (w : CanvasWidget) (path : String)
    (file : Option Json) :
    ((path = "" ∨ file = none ∨ ∃ j, file = some j ∧ j.isObject = false) →
      loadPointsFromFile w path file = (w, false)) ∧
    ((loadPointsFromFile w path file).2 = true →
      ∀ w' : CanvasWidget,
        loadPointsFromFile w' path file = loadPointsFromFile w path file) := by
  constructor
  · rintro (hp | hf | ⟨j, hj, hobj⟩)
    · simp [loadPointsFromFile, hp]
    · simp [loadPointsFromFile, hf]
    · subst hj
      by_cases hp : path = ""
      · simp [loadPointsFromFile, hp]
      · simp [loadPointsFromFile, hp, hobj]
  · intro h w'
    by_cases hp : path = ""
    · simp [loadPointsFromFile, hp] at h
    · match hf : file with
      | none => simp [loadPointsFromFile, hp, hf] at h
      | some doc =>
        by_cases hobj : doc.isObject
        · simp [loadPointsFromFile, hp, hobj]
        · simp [loadPointsFromFile, hp, hf, hobj] at h

/-- A populated model with one selected circle, used as the prior state in
the load-atomicity witness. -/
def exLoadedState : CanvasWidget :=
  { points := [⟨(7, 7), "Q"⟩], circles := [⟨(0, 0), 2, "C"⟩],
    selectedCircleIndices := [0] }

/-- C7 witness: an unreadable file leaves `exLoadedState` untouched, and a
successful load of an empty JSON object erases any dependence on the prior
state. -/
theorem loadPointsFromFile_atomic_witness :
    loadPointsFromFile exLoadedState "f.json" none = (exLoadedState, false) ∧
    loadPointsFromFile exLoadedState "f.json" (some (Json.obj [])) =
      loadPointsFromFile {} "f.json" (some (Json.obj [])) := by
  constructor
  · exact (loadPointsFromFile_atomic exLoadedState "f.json" none).1
      (Or.inr (Or.inl rfl))
  · exact (loadPointsFromFile_atomic ({} : CanvasWidget) "f.json"
      (some (Json.obj []))).2 rfl exLoadedState

/-- Updating entry `i` leaves the length unchanged, rewrites exactly entry
`i`, and leaves every other entry as it was. -/
theorem setListEntry_frame {α : Type} (xs : List α) (i : ℕ) (f : α → α)
    (j : ℕ) :
    (setListEntry xs i f).length = xs.length ∧
    (setListEntry xs i f)[j]? =
      (if j = i then xs[j]?.map f else xs[j]?) := by
  constructor
  · unfold setListEntry
    cases hpi : xs[i]? <;> simp
  · unfold setListEntry
    cases hpi : xs[i]? with
    | none =>
      by_cases hj : j = i
      · subst hj
        simp [hpi]
      · simp [hj]
    | some x =>
      rw [List.getElem?_set]
      by_cases hj : j = i
      · subst hj
        have hlt : j < xs.length := by
          by_contra hge
          exact absurd hpi
            (by simp [List.getElem?_eq_none (Nat.le_of_not_lt hge)])
        simp [hlt, hpi]
      · have hij : i ≠ j := fun h => hj h.symm
        simp [hij, hj]

/-- C8: `setLabelForSelection` fails without state change unless exactly one
entity is selected overall; with a single selection of each kind it succeeds
exactly when the handle is in range, and then it only rewrites that one
entry's label (the `setListEntry` conjunct pins down that the update touches
nothing but entry `idx`). -/
theorem setLabelForSelection_spec (w : CanvasWidget) (label : String) :
    (totalSelectedCount w ≠ 1 → setLabelForSelection w label = (w, false)) ∧
    (∀ idx : ℤ, w.selectedPointIndices = [idx] →
        w.selectedLineIndices = [] → w.selectedExtendedLineIndices = [] →
        w.selectedCircleIndices = [] →
      (if 0 ≤ idx ∧ idx < (w.points.length : ℤ) then
        setLabelForSelection w label =
          ({ w with points := setPointLabel w.points idx.toNat label }, true)
      else setLabelForSelection w label = (w, false))) ∧
    (∀ idx : ℤ, w.selectedPointIndices = [] →
        w.selectedLineIndices = [idx] → w.selectedExtendedLineIndices = [] →
        w.selectedCircleIndices = [] →
      (if 0 ≤ idx ∧ idx < (w.lines.length : ℤ) then
        setLabelForSelection w label =
          ({ w with lines := setLineLabel w.lines idx.toNat label }, true)
      else setLabelForSelection w label = (w, false))) ∧
    (∀ idx : ℤ, w.selectedPointIndices = [] → w.selectedLineIndices = [] →
        w.selectedExtendedLineIndices = [idx] →
        w.selectedCircleIndices = [] →
      (if 0 ≤ idx ∧ idx < (w.extendedLines.length : ℤ) then
        setLabelForSelection w label =
          ({ w with extendedLines :=
              setExtendedLineLabel w.extendedLines idx.toNat label }, true)
      else setLabelForSelection w label = (w, false))) ∧
    (∀ idx : ℤ, w.selectedPointIndices = [] → w.selectedLineIndices = [] →
        w.selectedExtendedLineIndices = [] →
        w.selectedCircleIndices = [idx] →
      (if 0 ≤ idx ∧ idx < (w.circles.length : ℤ) then
        setLabelForSelection w label =
          ({ w with circles := setCircleLabel w.circles idx.toNat label },
            true)
      else setLabelForSelection w label = (w, false))) ∧
    (∀ (α : Type) (xs : List α) (i : ℕ) (f : α → α) (j : ℕ),
      (setListEntry xs i f).length = xs.length ∧
      (setListEntry xs i f)[j]? =
        (if j = i then xs[j]?.map f else xs[j]?)) := by
  refine ⟨fun h => by simp [setLabelForSelection, h], ?_, ?_, ?_, ?_,
    fun α xs i f j => setListEntry_frame xs i f j⟩
  all_goals
    intro idx h1 h2 h3 h4
  all_goals
    have htot : ¬totalSelectedCount w ≠ 1 := by
      simp [totalSelectedCount, h1, h2, h3, h4]
  all_goals
    split_ifs with hr
  all_goals
    simp [setLabelForSelection, htot, h1, h2, h3, h4, hr]

/-- A model with one selected point, used in the labelling witness. -/
def exLabelState : CanvasWidget :=
  { points := [⟨(0, 0), "P0"⟩], selectedPointIndices := [0] }

/-- C8 witness: relabelling succeeds on a single selected in-range point and
fails on an empty selection. -/
theorem setLabelForSelection_spec_witness :
    setLabelForSelection exLabelState "A" =
      ({ exLabelState with
          points := setPointLabel exLabelState.points 0 "A" }, true) ∧
    setLabelForSelection {} "A" = ({}, false) := by
  constructor
  · have h := (setLabelForSelection_spec exLabelState "A").2.1 0 rfl rfl rfl
      rfl
    rw [if_pos (by decide)] at h
    exact h
  · exact (setLabelForSelection_spec {} "A").1 (by decide)

/-- C4: `segmentIntersection` returns `none` exactly when the 2×2
determinant's magnitude is below 1e-9 or the solved parameters `t`, `u` are
not both within `[-1e-9, 1+1e-9]`; otherwise it returns `p1 + t·(p2−p1)`
where `t`, `u` solve the two parametric line equations.  In particular the
unit-square diagonals meet at (0.5, 0.5). -/
theorem segmentIntersection_spec :
    (∀ p p2 q q2 : Vec2,
      (|(p2.1 - p.1) * (q2.2 - q.2) - (p2.2 - p.2) * (q2.1 - q.1)| <
          1 / 1000000000 →
        segmentIntersection p p2 q q2 = none) ∧
      (1 / 1000000000 ≤
          |(p2.1 - p.1) * (q2.2 - q.2) - (p2.2 - p.2) * (q2.1 - q.1)| →
        ∃ t u : ℚ,
          (p.1 + t * (p2.1 - p.1) = q.1 + u * (q2.1 - q.1) ∧
            p.2 + t * (p2.2 - p.2) = q.2 + u * (q2.2 - q.2)) ∧
          segmentIntersection p p2 q q2 =
            (if -1 / 1000000000 ≤ t ∧ t ≤ 1 + 1 / 1000000000 ∧
                -1 / 1000000000 ≤ u ∧ u ≤ 1 + 1 / 1000000000 then
              some (p.1 + t * (p2.1 - p.1), p.2 + t * (p2.2 - p.2))
            else none))) ∧
    segmentIntersection (0, 0) (1, 1) (1, 0) (0, 1) = some (1 / 2, 1 / 2) := by
  refine ⟨fun p p2 q q2 => ⟨fun h => ?_, fun h => ?_⟩, ?_⟩
  · simp only [segmentIntersection]
    rw [if_pos h]
  · have hD : (p2.1 - p.1) * (q2.2 - q.2) - (p2.2 - p.2) * (q2.1 - q.1) ≠
        0 := by
      intro h0
      rw [h0] at h
      norm_num at h
    refine ⟨((q.1 - p.1) * (q2.2 - q.2) - (q.2 - p.2) * (q2.1 - q.1)) /
        ((p2.1 - p.1) * (q2.2 - q.2) - (p2.2 - p.2) * (q2.1 - q.1)),
      ((q.1 - p.1) * (p2.2 - p.2) - (q.2 - p.2) * (p2.1 - p.1)) /
        ((p2.1 - p.1) * (q2.2 - q.2) - (p2.2 - p.2) * (q2.1 - q.1)),
      ⟨?_, ?_⟩, ?_⟩
    · field_simp
      ring
    · field_simp
      ring
    · simp only [segmentIntersection]
      rw [if_neg (not_lt.mpr h)]
  · norm_num [segmentIntersection, abs_of_nonneg, abs_of_nonpos]

/-- C4 witness: two horizontal (parallel) segments have a vanishing
determinant, and the intersection helper reports no hit. -/
theorem segmentIntersection_spec_witness :
    segmentIntersection ((0 : ℚ), (0 : ℚ)) (1, 0) (0, 1) (1, 1) = none :=
  (segmentIntersection_spec.1 (0, 0) (1, 0) (0, 1) (1, 1)).1 (by norm_num)

/-- The extension loop produces exactly one new `ExtendedLine` per valid
selected line handle, records those handles for removal, and reports a change
iff at least one handle was valid. -/
theorem extendLoop_eq (pts : List Point) (lines : List Line) :
    ∀ sel : List ℤ,
      extendLoop pts lines sel =
        ((validIndices lines sel).map
            (fun i => computeExtendedLine pts (lines.getD i.toNat ⟨-1, -1, ""⟩)),
          validIndices lines sel, !(validIndices lines sel).isEmpty)
  | [] => by simp [extendLoop, validIndices]
  | idx :: rest => by
    have ih := extendLoop_eq pts lines rest
    by_cases hv : 0 ≤ idx ∧ idx < (lines.length : ℤ)
    · simp [extendLoop, hv, ih, validIndices, List.filter_cons]
    · simp [extendLoop, hv, ih, validIndices, List.filter_cons]

/-- The keep-unselected loop keeps exactly the entries whose index is not in
`sel`, in order. -/
theorem removeSelected_fst {α : Type} (sel : List ℤ) :
    ∀ (xs : List α) (i : ℕ),
      (removeSelected sel i xs).1 =
        ((xs.enumFrom i).filter fun ix => !sel.contains (ix.1 : ℤ)).map
          Prod.snd
  | [], _ => by simp [removeSelected]
  | x :: xs, i => by
    have ih := removeSelected_fst sel xs (i + 1)
    by_cases hc : (i : ℤ) ∈ sel
    · simp [removeSelected, hc, ih, List.enumFrom]
    · simp [removeSelected, hc, ih, List.enumFrom]

/-- When no selected line handle is valid, `extendSelectedLines` is a no-op
that reports no change. -/
theorem extendSelectedLines_of_no_valid (v : CanvasWidget)
    (hv : validIndices v.lines v.selectedLineIndices = []) :
    extendSelectedLines v = (v, false) := by
  have hl := extendLoop_eq v.points v.lines v.selectedLineIndices
  rw [hv] at hl
  simp only [List.map_nil, List.isEmpty_nil, Bool.not_true] at hl
  unfold extendSelectedLines
  rw [hl]
  simp

/-- C9: Extend converts each selected in-range finite `Line` into an
`ExtendedLine` appended to `extendedLines` and removes exactly those lines;
it reports a change iff some selected handle was a finite line; when no
selected object is a finite `Line` it is a no-op reporting no change; and
after a successful run a second run does nothing (no duplicate
`ExtendedLine`). -/
theorem extendSelectedLines_idem (w : CanvasWidget) :
    ((extendSelectedLines w).1.extendedLines =
      w.extendedLines ++
        (validIndices w.lines w.selectedLineIndices).map
          (fun i => computeExtendedLine w.points
            (w.lines.getD i.toNat ⟨-1, -1, ""⟩))) ∧
    ((extendSelectedLines w).1.lines =
      (w.lines.enum.filter fun il =>
        !(validIndices w.lines w.selectedLineIndices).contains
          (il.1 : ℤ)).map Prod.snd) ∧
    ((extendSelectedLines w).2 = true ↔
      validIndices w.lines w.selectedLineIndices ≠ []) ∧
    ((∀ i ∈ w.selectedLineIndices, ¬(0 ≤ i ∧ i < (w.lines.length : ℤ))) →
      extendSelectedLines w = (w, false)) ∧
    ((extendSelectedLines w).2 = true →
      extendSelectedLines (extendSelectedLines w).1 =
        ((extendSelectedLines w).1, false)) := by
  have hloop := extendLoop_eq w.points w.lines w.selectedLineIndices
  have hA : (extendSelectedLines w).1.extendedLines =
      w.extendedLines ++
        (extendLoop w.points w.lines w.selectedLineIndices).1 := rfl
  have hB : (extendSelectedLines w).1.lines =
      (if (extendLoop w.points w.lines w.selectedLineIndices).2.1.isEmpty
        then w.lines
        else (removeSelected
          (extendLoop w.points w.lines w.selectedLineIndices).2.1 0
          w.lines).1) := rfl
  have hC : (extendSelectedLines w).2 =
      (extendLoop w.points w.lines w.selectedLineIndices).2.2 := rfl
  have hS : (extendSelectedLines w).1.selectedLineIndices =
      (if (extendLoop w.points w.lines w.selectedLineIndices).2.1.isEmpty
        then w.selectedLineIndices else []) := rfl
  by_cases hval : validIndices w.lines w.selectedLineIndices = []
  · refine ⟨?_, ?_, ?_, ?_, ?_⟩
    · rw [hA, hloop]
    · rw [hB, hloop]
      dsimp only
      rw [hval]
      simp [List.enum_map_snd]
    · rw [hC, hloop]
      dsimp only
      rw [hval]
      simp
    · intro _
      exact extendSelectedLines_of_no_valid w hval
    · intro h
      rw [hC, hloop] at h
      dsimp only at h
      rw [hval] at h
      simp at h
  · have hne : (validIndices w.lines w.selectedLineIndices).isEmpty =
        false := by
      simpa [List.isEmpty_iff] using hval
    refine ⟨?_, ?_, ?_, ?_, ?_⟩
    · rw [hA, hloop]
    · rw [hB, hloop]
      dsimp only
      rw [hne]
      simp only [Bool.false_eq_true, if_false]
      rw [removeSelected_fst]
      rfl
    · rw [hC, hloop]
      dsimp only
      simp [List.isEmpty_iff]
    · intro hinv
      refine absurd ?_ hval
      unfold validIndices
      exact List.filter_eq_nil_iff.mpr fun i hi => by simpa using hinv i hi
    · intro _
      have hsel : (extendSelectedLines w).1.selectedLineIndices = [] := by
        rw [hS, hloop]
        dsimp only
        rw [hne]
        simp
      exact extendSelectedLines_of_no_valid _ (by rw [hsel]; rfl)

/-- A model with one selected finite line between two points. -/
def exExtendState : CanvasWidget :=
  { points := [⟨(0, 0), "P0"⟩, ⟨(1, 1), "P1"⟩],
    lines := [⟨0, 1, "L1"⟩], selectedLineIndices := [0] }

/-- A model whose only line selection is an out-of-range handle (no finite
line to extend). -/
def exNoLineState : CanvasWidget :=
  { extendedLines := [⟨(-5, -5), (5, 5), "E"⟩], selectedLineIndices := [3] }

/-- C9 witness: extending `exExtendState` succeeds and a second Extend is a
no-op; on `exNoLineState` (nothing extendable selected) Extend reports no
change. -/
theorem extendSelectedLines_idem_witness :
    extendSelectedLines (extendSelectedLines exExtendState).1 =
      ((extendSelectedLines exExtendState).1, false) ∧
    extendSelectedLines exNoLineState = (exNoLineState, false) := by
  constructor
  · exact (extendSelectedLines_idem exExtendState).2.2.2.2 (by decide)
  · exact (extendSelectedLines_idem exNoLineState).2.2.2.1 (by decide)

/-- The compaction loop's `newPoints` output keeps exactly the points whose
index is not selected, in their original order. -/
theorem buildIndexMap_snd (rm : List ℤ) :
    ∀ (ps : List Point) (i c : ℕ),
      (buildIndexMap rm i c ps).2 =
        ((ps.enumFrom i).filter fun ip => !rm.contains (ip.1 : ℤ)).map
          Prod.snd
  | [], _, _ => by simp [buildIndexMap]
  | p :: ps, i, c => by
    by_cases hc : (i : ℤ) ∈ rm
    · simp [buildIndexMap, hc, buildIndexMap_snd rm ps (i + 1) c,
        List.enumFrom]
    · simp [buildIndexMap, hc, buildIndexMap_snd rm ps (i + 1) (c + 1),
        List.enumFrom]

/-- The compaction loop's `indexMap` has one entry per point. -/
theorem buildIndexMap_fst_length (rm : List ℤ) :
    ∀ (ps : List Point) (i c : ℕ),
      (buildIndexMap rm i c ps).1.length = ps.length
  | [], _, _ => by simp [buildIndexMap]
  | p :: ps, i, c => by
    by_cases hc : (i : ℤ) ∈ rm
    · simp [buildIndexMap, hc, buildIndexMap_fst_length rm ps (i + 1) c]
    · simp [buildIndexMap, hc, buildIndexMap_fst_length rm ps (i + 1) (c + 1)]

/-- Entry `j` of the `indexMap` built from position `i` with `c` survivors
so far is `-1` for removed indices and `c` plus the number of surviving
indices in `[i, i+j)` otherwise. -/
theorem buildIndexMap_fst_get (rm : List ℤ) :
    ∀ (ps : List Point) (i c j : ℕ), j < ps.length →
      (buildIndexMap rm i c ps).1[j]? =
        some (if rm.contains ((i + j : ℕ) : ℤ) then (-1 : ℤ)
          else (c + ((List.range' i j).filter
            (fun t : ℕ => !rm.contains ((t : ℕ) : ℤ))).length : ℤ))
  | [], _, _, _, hj => by simp at hj
  | p :: ps, i, c, j, hj => by
    by_cases hc : (i : ℤ) ∈ rm
    · cases j with
      | zero => simp [buildIndexMap, hc]
      | succ j =>
        have ih := buildIndexMap_fst_get rm ps (i + 1) c j
          (Nat.lt_of_succ_lt_succ hj)
        have harith : i + (j + 1) = i + 1 + j := by omega
        rw [harith]
        simp only [buildIndexMap]
        rw [if_pos (show rm.contains ((i : ℕ) : ℤ) = true by simp [hc])]
        dsimp only
        rw [List.getElem?_cons_succ, ih]
        apply congrArg
        split_ifs with h1
        · rfl
        · rw [List.range'_succ, List.filter_cons,
            if_neg (show ¬(!rm.contains ((i : ℕ) : ℤ)) = true by simp [hc])]
    · cases j with
      | zero => simp [buildIndexMap, hc]
      | succ j =>
        have ih := buildIndexMap_fst_get rm ps (i + 1) (c + 1) j
          (Nat.lt_of_succ_lt_succ hj)
        have harith : i + (j + 1) = i + 1 + j := by omega
        rw [harith]
        simp only [buildIndexMap]
        rw [if_neg (show ¬rm.contains ((i : ℕ) : ℤ) = true by simp [hc])]
        dsimp only
        rw [List.getElem?_cons_succ, ih]
        apply congrArg
        split_ifs with h1
        · rfl
        · rw [List.range'_succ, List.filter_cons,
            if_pos (show (!rm.contains ((i : ℕ) : ℤ)) = true by simp [hc])]
          simp only [List.length_cons]
          push_cast
          ring

/-- The line-filtering loop keeps exactly the unselected lines whose
endpoints are unremoved, in range and remapped to nonnegative entries of the
index map. -/
theorem remapLines_fst (sel rm im : List ℤ) :
    ∀ (ls : List Line) (i : ℕ),
      (remapLines sel rm im i ls).1 =
        (ls.enumFrom i).filterMap fun il =>
          if sel.contains (il.1 : ℤ) then none
          else if rm.contains il.2.a || rm.contains il.2.b then none
          else if il.2.a < 0 || il.2.b < 0 || (im.length : ℤ) ≤ il.2.a ||
              (im.length : ℤ) ≤ il.2.b then none
          else if im.getD il.2.a.toNat (-1) < 0 ||
              im.getD il.2.b.toNat (-1) < 0 then none
          else some ⟨im.getD il.2.a.toNat (-1), im.getD il.2.b.toNat (-1),
            il.2.label⟩
  | [], _ => by simp [remapLines]
  | l :: ls, i => by
    have ih := remapLines_fst sel rm im ls (i + 1)
    simp only [remapLines, List.enumFrom, List.filterMap_cons]
    dsimp only
    split_ifs <;> simp [ih]

/-- Filtering an enumeration by a predicate on the index keeps as many
entries as filtering the index range itself. -/
theorem enumFrom_filter_length {α : Type} (f : ℤ → Bool) :
    ∀ (ps : List α) (i : ℕ),
      ((ps.enumFrom i).filter fun ip => f (ip.1 : ℤ)).length =
        ((List.range' i ps.length).filter fun j => f ((j : ℕ) : ℤ)).length
  | [], _ => by simp
  | p :: ps, i => by
    have ih := enumFrom_filter_length f ps (i + 1)
    simp only [List.enumFrom, List.length_cons, List.range'_succ,
      List.filter_cons]
    by_cases hf : f (i : ℤ) = true
    · simp [hf, ih]
    · simp [hf, ih]

/-- A surviving in-range handle's compacted index is below the number of
survivors. -/
theorem compactIndex_lt (rm : List ℤ) (n : ℕ) (a : ℤ) (h0 : 0 ≤ a)
    (hn : a < (n : ℤ)) (hs : rm.contains a = false) :
    compactIndex rm a <
      (((List.range' 0 n).filter
        fun j : ℕ => !rm.contains ((j : ℕ) : ℤ)).length : ℤ) := by
  have hk : a.toNat < n := by omega
  have hsplit : List.range' 0 a.toNat ++ List.range' a.toNat (n - a.toNat) =
      List.range' 0 n := by
    have h := List.range'_append 0 a.toNat (n - a.toNat) 1
    simp only [Nat.zero_add, Nat.one_mul] at h
    rw [show n - a.toNat + a.toNat = n from by omega] at h
    exact h
  obtain ⟨m, hm⟩ : ∃ m, n - a.toNat = m + 1 := ⟨n - a.toNat - 1, by omega⟩
  have hcast : ((a.toNat : ℕ) : ℤ) = a := Int.toNat_of_nonneg h0
  rw [← hsplit, List.filter_append, List.length_append, hm,
    List.range'_succ, List.filter_cons]
  rw [if_pos (show (!rm.contains ((a.toNat : ℕ) : ℤ)) = true by
    rw [hcast, hs]; rfl)]
  unfold compactIndex
  rw [List.range_eq_range']
  simp only [List.length_cons]
  push_cast
  omega

/-- Looking up a surviving in-range handle in the built index map yields its
compacted index. -/
theorem buildIndexMap_getD (w : CanvasWidget) (x : ℤ) (hx0 : 0 ≤ x)
    (hxn : x < (w.points.length : ℤ))
    (hxc : w.selectedPointIndices.contains x = false) :
    (buildIndexMap w.selectedPointIndices 0 0 w.points).1.getD x.toNat (-1) =
      compactIndex w.selectedPointIndices x := by
  have hj : x.toNat < w.points.length := by omega
  have hget := buildIndexMap_fst_get w.selectedPointIndices w.points 0 0
    x.toNat hj
  rw [List.getD_eq_getElem?_getD, hget]
  have hxx : ((0 + x.toNat : ℕ) : ℤ) = x := by
    rw [Nat.zero_add]
    exact Int.toNat_of_nonneg hx0
  rw [hxx, hxc]
  simp only [Bool.false_eq_true, if_false, Option.getD_some]
  unfold compactIndex
  rw [List.range_eq_range']
  push_cast
  ring

/-- C1: with a non-empty point selection, `deleteSelected` removes each
selected point and compacts the survivors in order; it drops every line that
is selected, references a removed point, or holds an out-of-range handle,
and remaps every surviving line's endpoints to their compacted indices; and
afterwards every stored line's endpoints are valid indices into the new
point list. -/
theorem deleteSelected_cascade (w : CanvasWidget)
    (hne : w.selectedPointIndices ≠ []) :
    (deleteSelected w).1.points =
      ((w.points.enum.filter
        fun ip => !w.selectedPointIndices.contains (ip.1 : ℤ)).map
        Prod.snd) ∧
    (deleteSelected w).1.lines =
      (w.lines.enum.filterMap fun il =>
        if w.selectedLineIndices.contains (il.1 : ℤ) then none
        else if w.selectedPointIndices.contains il.2.a ||
            w.selectedPointIndices.contains il.2.b then none
        else if il.2.a < 0 || il.2.b < 0 ||
            (w.points.length : ℤ) ≤ il.2.a ||
            (w.points.length : ℤ) ≤ il.2.b then none
        else some ⟨compactIndex w.selectedPointIndices il.2.a,
          compactIndex w.selectedPointIndices il.2.b, il.2.label⟩) ∧
    (∀ l ∈ (deleteSelected w).1.lines,
      0 ≤ l.a ∧ l.a < ((deleteSelected w).1.points.length : ℤ) ∧
      0 ≤ l.b ∧ l.b < ((deleteSelected w).1.points.length : ℤ)) := by
  have hie : w.selectedPointIndices.isEmpty = false := by
    simpa [List.isEmpty_iff] using hne
  have hlen : (buildIndexMap w.selectedPointIndices 0 0 w.points).1.length =
      w.points.length := buildIndexMap_fst_length _ _ _ _
  have hpoints : (deleteSelected w).1.points =
      ((w.points.enum.filter
        fun ip => !w.selectedPointIndices.contains (ip.1 : ℤ)).map
        Prod.snd) := by
    have h2 : (deleteSelected w).1.points =
        (buildIndexMap w.selectedPointIndices 0 0 w.points).2 := by
      simp [deleteSelected, hie]
    rw [h2, buildIndexMap_snd]
    rfl
  have hlines : (deleteSelected w).1.lines =
      (w.lines.enum.filterMap fun il =>
        if w.selectedLineIndices.contains (il.1 : ℤ) then none
        else if w.selectedPointIndices.contains il.2.a ||
            w.selectedPointIndices.contains il.2.b then none
        else if il.2.a < 0 || il.2.b < 0 ||
            (w.points.length : ℤ) ≤ il.2.a ||
            (w.points.length : ℤ) ≤ il.2.b then none
        else some ⟨compactIndex w.selectedPointIndices il.2.a,
          compactIndex w.selectedPointIndices il.2.b, il.2.label⟩) := by
    have h2 : (deleteSelected w).1.lines =
        (remapLines w.selectedLineIndices w.selectedPointIndices
          (buildIndexMap w.selectedPointIndices 0 0 w.points).1 0
          w.lines).1 := by
      simp [deleteSelected, hie]
    rw [h2, remapLines_fst]
    simp only [hlen]
    show (w.lines.enum).filterMap _ = _
    refine List.filterMap_congr fun il hmem => ?_
    obtain ⟨i, l⟩ := il
    dsimp only
    by_cases h1 : w.selectedLineIndices.contains ((i : ℕ) : ℤ) = true
    · rw [if_pos h1, if_pos h1]
    · rw [if_neg h1, if_neg h1]
      by_cases h2 : (w.selectedPointIndices.contains l.a ||
          w.selectedPointIndices.contains l.b) = true
      · rw [if_pos h2, if_pos h2]
      · rw [if_neg h2, if_neg h2]
        by_cases h3 : (l.a < 0 || l.b < 0 ||
            (w.points.length : ℤ) ≤ l.a ||
            (w.points.length : ℤ) ≤ l.b) = true
        · rw [if_pos h3, if_pos h3]
        · rw [if_neg h3, if_neg h3]
          simp only [Bool.or_eq_true, not_or, decide_eq_true_eq] at h2 h3
          obtain ⟨hca, hcb⟩ := h2
          obtain ⟨⟨⟨ha0, hb0⟩, han⟩, hbn⟩ := h3
          have ha0' : 0 ≤ l.a := not_lt.mp ha0
          have hb0' : 0 ≤ l.b := not_lt.mp hb0
          have han' : l.a < (w.points.length : ℤ) := not_le.mp han
          have hbn' : l.b < (w.points.length : ℤ) := not_le.mp hbn
          have hva := buildIndexMap_getD w l.a ha0' han'
            (Bool.not_eq_true _ ▸ hca)
          have hvb := buildIndexMap_getD w l.b hb0' hbn'
            (Bool.not_eq_true _ ▸ hcb)
          rw [hva, hvb]
          rw [if_neg]
          simp only [Bool.or_eq_true, decide_eq_true_eq, not_or, not_lt]
          unfold compactIndex
          constructor <;> positivity
  refine ⟨hpoints, hlines, ?_⟩
  intro l hl
  rw [hlines] at hl
  obtain ⟨⟨i, l0⟩, hmem, hfl⟩ := List.mem_filterMap.mp hl
  dsimp only at hfl
  by_cases h1 : w.selectedLineIndices.contains ((i : ℕ) : ℤ) = true
  · rw [if_pos h1] at hfl
    exact absurd hfl (by simp)
  rw [if_neg h1] at hfl
  by_cases h2 : (w.selectedPointIndices.contains l0.a ||
      w.selectedPointIndices.contains l0.b) = true
  · rw [if_pos h2] at hfl
    exact absurd hfl (by simp)
  rw [if_neg h2] at hfl
  by_cases h3 : (l0.a < 0 || l0.b < 0 ||
      (w.points.length : ℤ) ≤ l0.a || (w.points.length : ℤ) ≤ l0.b) = true
  · rw [if_pos h3] at hfl
    exact absurd hfl (by simp)
  rw [if_neg h3] at hfl
  · simp only [Bool.or_eq_true, not_or, decide_eq_true_eq] at h2 h3
    obtain ⟨hca, hcb⟩ := h2
    obtain ⟨⟨⟨ha0, hb0⟩, han⟩, hbn⟩ := h3
    have hplen : ((deleteSelected w).1.points.length : ℤ) =
        (((List.range' 0 w.points.length).filter
          fun j : ℕ => !w.selectedPointIndices.contains ((j : ℕ) : ℤ)).length :
          ℤ) := by
      rw [hpoints, List.length_map]
      norm_cast
      exact enumFrom_filter_length
        (fun z => !w.selectedPointIndices.contains z) w.points 0
    cases Option.some.inj hfl
    dsimp only
    refine ⟨?_, ?_, ?_, ?_⟩
    · unfold compactIndex
      positivity
    · rw [hplen]
      exact compactIndex_lt _ _ _ (not_lt.mp ha0) (not_le.mp han)
        (Bool.not_eq_true _ ▸ hca)
    · unfold compactIndex
      positivity
    · rw [hplen]
      exact compactIndex_lt _ _ _ (not_lt.mp hb0) (not_le.mp hbn)
        (Bool.not_eq_true _ ▸ hcb)

/-- Three points with a line P0-P1 and a second line P1-P2, P0 selected. -/
def exCascadeState : CanvasWidget :=
  { points := [⟨(0, 0), "P0"⟩, ⟨(1, 0), "P1"⟩, ⟨(2, 0), "P2"⟩],
    lines := [⟨0, 1, "L1"⟩, ⟨1, 2, "L2"⟩],
    selectedPointIndices := [0], pointSelectionOrder := [0] }

/-- C1 witness: deleting the selected P0 of `exCascadeState` removes the line
P0-P1, compacts P1, P2 to indices 0, 1, remaps L2 accordingly, and leaves
only in-range line handles. -/
theorem deleteSelected_cascade_witness :
    (deleteSelected exCascadeState).1.points =
      ((exCascadeState.points.enum.filter
        fun ip => !exCascadeState.selectedPointIndices.contains (ip.1 : ℤ)).map
        Prod.snd) ∧
    (deleteSelected exCascadeState).1.lines =
      (exCascadeState.lines.enum.filterMap fun il =>
        if exCascadeState.selectedLineIndices.contains (il.1 : ℤ) then none
        else if exCascadeState.selectedPointIndices.contains il.2.a ||
            exCascadeState.selectedPointIndices.contains il.2.b then none
        else if il.2.a < 0 || il.2.b < 0 ||
            (exCascadeState.points.length : ℤ) ≤ il.2.a ||
            (exCascadeState.points.length : ℤ) ≤ il.2.b then none
        else some ⟨compactIndex exCascadeState.selectedPointIndices il.2.a,
          compactIndex exCascadeState.selectedPointIndices il.2.b,
          il.2.label⟩) ∧
    (∀ l ∈ (deleteSelected exCascadeState).1.lines,
      0 ≤ l.a ∧ l.a < ((deleteSelected exCascadeState).1.points.length : ℤ) ∧
      0 ≤ l.b ∧
        l.b < ((deleteSelected exCascadeState).1.points.length : ℤ)) :=
  deleteSelected_cascade exCascadeState (by decide)

/-- Behaviour of `circleCircleIntersections` in terms of the center distance
`d`, the chord-midpoint offset `a` and the half-chord `h` it computes: empty
when `d` is below 1e-9 or outside `[|r0−r1|, r0+r1]`; within range the
quantity `r0²−a²` is nonnegative, and the hit list has one point when
`h ≤ 1e-9` and two when `h > 1e-9`. -/
theorem circleCircle_spec_general (c0 c1 : ℝ × ℝ) (r0 r1 d a h : ℝ)
    (hd : d = Real.sqrt ((c1.1 - c0.1) * (c1.1 - c0.1) +
      (c1.2 - c0.2) * (c1.2 - c0.2)))
    (ha : a = (r0 * r0 - r1 * r1 + d * d) / (2 * d))
    (hh : h = Real.sqrt (max 0 (r0 * r0 - a * a))) :
    ((d < 1 / 1000000000 ∨ r0 + r1 < d ∨ d < |r0 - r1|) →
      circleCircleIntersections c0 r0 c1 r1 = []) ∧
    (1 / 1000000000 ≤ d → d ≤ r0 + r1 → |r0 - r1| ≤ d →
      (h ≤ 1 / 1000000000 →
        (circleCircleIntersections c0 r0 c1 r1).length = 1) ∧
      (1 / 1000000000 < h →
        (circleCircleIntersections c0 r0 c1 r1).length = 2)) := by
  subst hd ha hh
  constructor
  · intro hcond
    simp only [circleCircleIntersections]
    rw [if_pos hcond]
  · intro h1 h2 h3
    have hd0 : (0 : ℝ) < Real.sqrt ((c1.1 - c0.1) * (c1.1 - c0.1) +
        (c1.2 - c0.2) * (c1.2 - c0.2)) := by
      calc (0 : ℝ) < 1 / 1000000000 := by norm_num
      _ ≤ _ := h1
    set d := Real.sqrt ((c1.1 - c0.1) * (c1.1 - c0.1) +
      (c1.2 - c0.2) * (c1.2 - c0.2)) with hdd
    have habs1 : r0 - r1 ≤ d := le_trans (le_abs_self _) h3
    have habs2 : r1 - r0 ≤ d := by
      calc r1 - r0 ≤ |r1 - r0| := le_abs_self _
      _ = |r0 - r1| := (abs_sub_comm r1 r0)
      _ ≤ d := h3
    have hA : (r0 * r0 - r1 * r1 + d * d) * (r0 * r0 - r1 * r1 + d * d) ≤
        4 * (d * d) * (r0 * r0) := by
      nlinarith [mul_nonneg (mul_nonneg
        (show (0:ℝ) ≤ r0 + r1 - d by linarith)
        (show (0:ℝ) ≤ d + r0 + r1 by linarith))
        (mul_nonneg (show (0:ℝ) ≤ d + r1 - r0 by linarith)
          (show (0:ℝ) ≤ d + r0 - r1 by linarith))]
    have haa : ((r0 * r0 - r1 * r1 + d * d) / (2 * d)) *
        ((r0 * r0 - r1 * r1 + d * d) / (2 * d)) ≤ r0 * r0 := by
      rw [div_mul_div_comm]
      rw [div_le_iff₀ (by positivity)]
      nlinarith [hA]
    have hnn : ¬(r0 * r0 - ((r0 * r0 - r1 * r1 + d * d) / (2 * d)) *
        ((r0 * r0 - r1 * r1 + d * d) / (2 * d)) < 0) := by
      push_neg
      linarith
    have hcond : ¬(d < 1 / 1000000000 ∨ r0 + r1 < d ∨ d < |r0 - r1|) := by
      push_neg
      exact ⟨not_lt.mp (not_lt.mpr h1), h2, h3⟩
    constructor
    · intro hle
      simp only [circleCircleIntersections]
      rw [if_neg hcond, if_neg hnn, if_neg (not_lt.mpr hle)]
      rfl
    · intro hlt
      simp only [circleCircleIntersections]
      rw [if_neg hcond, if_neg hnn, if_pos hlt]
      rfl

/-- C5 counterexample: two "otherwise" configurations on which the claim's
exact reading fails.  First, circles of radius 1 centered at (0,0) and
(1e-10, 0): the centers are distinct and the distance lies strictly inside
[|r0−r1|, r0+r1], yet the code returns no intersection because `d < 1e-9`.
Second, radius-1 circles centered at (0,0) and (2−1e-19, 0): strictly inside
the range and not tangent, yet the code returns exactly one point because
the half-chord `h` is positive but below 1e-9. -/
theorem circleCircle_tolerance_cex :
    (((0 : ℝ), (0 : ℝ)) ≠ ((1 / 10000000000 : ℝ), (0 : ℝ)) ∧
      Real.sqrt (((1 / 10000000000 : ℝ) - 0) * ((1 / 10000000000 : ℝ) - 0) +
        ((0 : ℝ) - 0) * ((0 : ℝ) - 0)) = 1 / 10000000000 ∧
      |(1 : ℝ) - 1| < 1 / 10000000000 ∧ (1 / 10000000000 : ℝ) < 1 + 1 ∧
      circleCircleIntersections (0, 0) 1 (1 / 10000000000, 0) 1 = []) ∧
    (Real.sqrt (((2 - 1 / 10 ^ 19 : ℝ) - 0) * ((2 - 1 / 10 ^ 19 : ℝ) - 0) +
        ((0 : ℝ) - 0) * ((0 : ℝ) - 0)) = 2 - 1 / 10 ^ 19 ∧
      |(1 : ℝ) - 1| < 2 - 1 / 10 ^ 19 ∧ (2 - 1 / 10 ^ 19 : ℝ) < 1 + 1 ∧
      (circleCircleIntersections (0, 0) 1 (2 - 1 / 10 ^ 19, 0) 1).length =
        1) := by
  have hd1 : Real.sqrt (((1 / 10000000000 : ℝ) - 0) * ((1 / 10000000000 : ℝ) - 0) +
      ((0 : ℝ) - 0) * ((0 : ℝ) - 0)) = 1 / 10000000000 := by
    rw [show ((1 / 10000000000 : ℝ) - 0) * ((1 / 10000000000 : ℝ) - 0) +
        ((0 : ℝ) - 0) * ((0 : ℝ) - 0) =
        (1 / 10000000000) * (1 / 10000000000) by norm_num]
    exact Real.sqrt_mul_self (by norm_num)
  have hd2 : Real.sqrt (((2 - 1 / 10 ^ 19 : ℝ) - 0) * ((2 - 1 / 10 ^ 19 : ℝ) - 0) +
      ((0 : ℝ) - 0) * ((0 : ℝ) - 0)) = 2 - 1 / 10 ^ 19 := by
    rw [show ((2 - 1 / 10 ^ 19 : ℝ) - 0) * ((2 - 1 / 10 ^ 19 : ℝ) - 0) +
        ((0 : ℝ) - 0) * ((0 : ℝ) - 0) =
        (2 - 1 / 10 ^ 19) * (2 - 1 / 10 ^ 19) by norm_num]
    exact Real.sqrt_mul_self (by norm_num)
  refine ⟨⟨?_, hd1, ?_, by norm_num, ?_⟩, hd2, ?_, by norm_num, ?_⟩
  · intro h
    have := congrArg Prod.fst h
    norm_num at this
  · rw [show |(1 : ℝ) - 1| = 0 by simp]
    norm_num
  · simp only [circleCircleIntersections]
    rw [hd1]
    rw [if_pos (Or.inl (by norm_num))]
  · rw [show |(1 : ℝ) - 1| = 0 by simp]
    norm_num
  · simp only [circleCircleIntersections]
    rw [hd2]
    rw [if_neg (by
      push_neg
      refine ⟨by norm_num, by norm_num, ?_⟩
      rw [show |(1 : ℝ) - 1| = 0 by simp]
      norm_num)]
    rw [show (1 : ℝ) * 1 -
        (1 * 1 - 1 * 1 + (2 - 1 / 10 ^ 19) * (2 - 1 / 10 ^ 19)) /
          (2 * (2 - 1 / 10 ^ 19)) *
        ((1 * 1 - 1 * 1 + (2 - 1 / 10 ^ 19) * (2 - 1 / 10 ^ 19)) /
          (2 * (2 - 1 / 10 ^ 19))) =
        (4 * 10 ^ 19 - 1) / (4 * 10 ^ 38) by norm_num]
    rw [if_neg (by norm_num)]
    rw [show max (0 : ℝ) ((4 * 10 ^ 19 - 1) / (4 * 10 ^ 38)) =
      (4 * 10 ^ 19 - 1) / (4 * 10 ^ 38) by norm_num]
    have hle : Real.sqrt ((4 * 10 ^ 19 - 1) / (4 * 10 ^ 38) : ℝ) ≤
        1 / 1000000000 := by
      rw [show (1 / 1000000000 : ℝ) =
        Real.sqrt ((1 / 1000000000) ^ 2) from (Real.sqrt_sq (by norm_num)).symm]
      exact Real.sqrt_le_sqrt (by norm_num)
    rw [if_neg (not_lt.mpr hle)]
    rfl

/-- C5 (amended): `circleCircleIntersections` yields no points when the
center distance `d` is below 1e-9 or outside `[|r0−r1|, r0+r1]`; within range
it yields exactly one point when the half-chord `h` is at most 1e-9
(tangency up to tolerance) and exactly two when `h > 1e-9`.  The spec's
concrete instances hold: radius-1 circles at distance 3 are disjoint, at
distance 2 they touch at (1,0), and radius-2 circles at distance 1 meet in
the two symmetric points (1/2, ±√15/2). -/
theorem circleCircleIntersections_spec :
    (∀ (c0 c1 : ℝ × ℝ) (r0 r1 d a h : ℝ),
      d = Real.sqrt ((c1.1 - c0.1) * (c1.1 - c0.1) +
        (c1.2 - c0.2) * (c1.2 - c0.2)) →
      a = (r0 * r0 - r1 * r1 + d * d) / (2 * d) →
      h = Real.sqrt (max 0 (r0 * r0 - a * a)) →
      ((d < 1 / 1000000000 ∨ r0 + r1 < d ∨ d < |r0 - r1|) →
        circleCircleIntersections c0 r0 c1 r1 = []) ∧
      (1 / 1000000000 ≤ d → d ≤ r0 + r1 → |r0 - r1| ≤ d →
        (h ≤ 1 / 1000000000 →
          (circleCircleIntersections c0 r0 c1 r1).length = 1) ∧
        (1 / 1000000000 < h →
          (circleCircleIntersections c0 r0 c1 r1).length = 2))) ∧
    circleCircleIntersections (0, 0) 1 (3, 0) 1 = [] ∧
    circleCircleIntersections (0, 0) 1 (2, 0) 1 = [(1, 0)] ∧
    circleCircleIntersections (0, 0) 2 (1, 0) 2 =
      [(1 / 2, Real.sqrt 15 / 2), (1 / 2, -(Real.sqrt 15 / 2))] := by
  refine ⟨fun c0 c1 r0 r1 d a h hd ha hh =>
    circleCircle_spec_general c0 c1 r0 r1 d a h hd ha hh, ?_, ?_, ?_⟩
  · simp only [circleCircleIntersections]
    rw [show (((3:ℝ), (0:ℝ)).1 - ((0:ℝ), (0:ℝ)).1) *
        (((3:ℝ), (0:ℝ)).1 - ((0:ℝ), (0:ℝ)).1) +
        (((3:ℝ), (0:ℝ)).2 - ((0:ℝ), (0:ℝ)).2) *
        (((3:ℝ), (0:ℝ)).2 - ((0:ℝ), (0:ℝ)).2) = 3 * 3 by norm_num]
    rw [Real.sqrt_mul_self (by norm_num : (0:ℝ) ≤ 3)]
    rw [if_pos (Or.inr (Or.inl (by norm_num)))]
  · simp only [circleCircleIntersections]
    rw [show (((2:ℝ), (0:ℝ)).1 - ((0:ℝ), (0:ℝ)).1) *
        (((2:ℝ), (0:ℝ)).1 - ((0:ℝ), (0:ℝ)).1) +
        (((2:ℝ), (0:ℝ)).2 - ((0:ℝ), (0:ℝ)).2) *
        (((2:ℝ), (0:ℝ)).2 - ((0:ℝ), (0:ℝ)).2) = 2 * 2 by norm_num]
    rw [Real.sqrt_mul_self (by norm_num : (0:ℝ) ≤ 2)]
    rw [if_neg (by
      push_neg
      refine ⟨by norm_num, by norm_num, ?_⟩
      rw [show |(1:ℝ) - 1| = 0 by simp]
      norm_num)]
    norm_num
  · simp only [circleCircleIntersections]
    rw [show (((1:ℝ), (0:ℝ)).1 - ((0:ℝ), (0:ℝ)).1) *
        (((1:ℝ), (0:ℝ)).1 - ((0:ℝ), (0:ℝ)).1) +
        (((1:ℝ), (0:ℝ)).2 - ((0:ℝ), (0:ℝ)).2) *
        (((1:ℝ), (0:ℝ)).2 - ((0:ℝ), (0:ℝ)).2) = 1 * 1 by norm_num]
    rw [Real.sqrt_mul_self (by norm_num : (0:ℝ) ≤ 1)]
    rw [if_neg (by
      push_neg
      refine ⟨by norm_num, by norm_num, ?_⟩
      rw [show |(2:ℝ) - 2| = 0 by simp]
      norm_num)]
    rw [show (2:ℝ) * 2 - (2 * 2 - 2 * 2 + 1 * 1) / (2 * 1) *
      ((2 * 2 - 2 * 2 + 1 * 1) / (2 * 1)) = 15/4 by norm_num]
    rw [if_neg (by norm_num)]
    rw [show max (0:ℝ) (15/4) = 15/4 by norm_num]
    have hs : Real.sqrt (15 / 4) = Real.sqrt 15 / 2 := by
      have hsq : ((Real.sqrt 15 / 2) : ℝ) ^ 2 = 15 / 4 := by
        rw [div_pow, Real.sq_sqrt (by norm_num : (0:ℝ) ≤ 15)]
        norm_num
      rw [← hsq, Real.sqrt_sq (by positivity)]
    rw [hs]
    have h15 : (1 : ℝ) ≤ Real.sqrt 15 := by
      rw [show (1:ℝ) = Real.sqrt 1 from (Real.sqrt_one).symm]
      exact Real.sqrt_le_sqrt (by norm_num)
    rw [if_pos (by linarith)]
    norm_num

/-- C5 witness: the general conjunct applied to disjoint unit circles
centered at (0,0) and (5,0). -/
theorem circleCircleIntersections_spec_witness :
    circleCircleIntersections ((0 : ℝ), (0 : ℝ)) 1 ((5 : ℝ), (0 : ℝ)) 1 =
      [] := by
  have hd : Real.sqrt ((((5:ℝ), (0:ℝ)).1 - ((0:ℝ), (0:ℝ)).1) *
      (((5:ℝ), (0:ℝ)).1 - ((0:ℝ), (0:ℝ)).1) +
      (((5:ℝ), (0:ℝ)).2 - ((0:ℝ), (0:ℝ)).2) *
      (((5:ℝ), (0:ℝ)).2 - ((0:ℝ), (0:ℝ)).2)) = 5 := by
    rw [show (((5:ℝ), (0:ℝ)).1 - ((0:ℝ), (0:ℝ)).1) *
        (((5:ℝ), (0:ℝ)).1 - ((0:ℝ), (0:ℝ)).1) +
        (((5:ℝ), (0:ℝ)).2 - ((0:ℝ), (0:ℝ)).2) *
        (((5:ℝ), (0:ℝ)).2 - ((0:ℝ), (0:ℝ)).2) = 5 * 5 by norm_num]
    exact Real.sqrt_mul_self (by norm_num)
  exact (circleCircleIntersections_spec.1 (0, 0) (5, 0) 1 1 _ _ _ rfl rfl
    rfl).1 (Or.inr (Or.inl (by rw [hd]; norm_num)))

end VibeGeometry
